import Mathlib

/-!
# Verification of the `ipapk` package-metadata extractor

Shallow embedding of `parser.go` (package `ipapk`): the extractor opens a
ZIP-based container, scans its entries for the Android manifest, the iOS
Info.plist and the iOS icon, dispatches on the file extension, and
assembles an `AppInfo` record.

External collaborators (the zip reader, the compact-binary-manifest
decoder `androidbinary`, the resource-table accessor `apk`, the plist
decoder, `iospng.PngRevertOptimization`, and `png.Decode`) are out of
scope of the repository; they are modelled as oracle functions collected
in an `Env` record, one `Env` per extraction call.  Go's `(value, error)`
returns become pairs of options, and the nil-pointer dereference that Go
turns into a runtime panic is modelled as an explicit `GoResult.panicNilDeref`
outcome.
-/

deriving instance DecidableEq for Except

/-- Raster image produced by a decoder; opaque to the pipeline
(`image.Image` in Go). -/
structure Image where
  id : Nat
  deriving DecidableEq, Repr

/-- One archive entry: its name together with the byte content that a
read of the opened entry would deliver (`*zip.File` in Go). -/
structure ZipEntry where
  name : String
  content : List Nat
  deriving DecidableEq, Repr

/-- The output record (`AppInfo`, parser.go lines 30-37).  Field names and
order follow the Go struct; `Size` is Go's `int64`. -/
structure AppInfo where
  Name : String
  BundleId : String
  Version : String
  Build : String
  Icon : Option Image
  Size : Int
  deriving DecidableEq, Repr

/-- The three attributes decoded from the compact binary manifest
(`androidManifest`, parser.go lines 39-43). -/
structure AndroidManifest where
  Package : String
  VersionName : String
  VersionCode : String
  deriving DecidableEq, Repr

/-- The five fields decoded from the property list (`iosPlist`,
parser.go lines 45-51).  `CFBundleShortVersion` carries the plist key
`CFBundleShortVersionString`. -/
structure IosPlist where
  CFBundleName : String
  CFBundleDisplayName : String
  CFBundleVersion : String
  CFBundleShortVersion : String
  CFBundleIdentifier : String
  deriving DecidableEq, Repr

/-- Outcome of `iospng.PngRevertOptimization(rc, &w)`: full success with
the reverted bytes in `w`, the recoverable `iospng.ErrImageData` error
with the partially reverted bytes left in `w`, or any other error. -/
inductive RevertResult where
  | ok (out : List Nat)
  | imageData (out : List Nat)
  | fail (msg : String)
  deriving DecidableEq, Repr

/-- The resource-table accessor handle returned by `apk.OpenFile`:
`icon d` models `pkg.Icon(&androidbinary.ResTableConfig{Density: d})`
(a nil image when nothing resolves; the accompanying error is ignored by
the caller), and `label` models `pkg.Label(nil)` with its error ignored. -/
structure ApkPkg where
  icon : Nat → Option Image
  label : String

/-- The collaborator oracles for one extraction call.  Each function maps
the bytes handed to the collaborator to the result the collaborator
returns; `apkOpen` models `apk.OpenFile(name)` on the call's file path. -/
structure Env where
  decodeManifest : List Nat → Except String AndroidManifest
  apkOpen : Except String ApkPkg
  decodePlist : List Nat → Except String IosPlist
  pngRevert : List Nat → RevertResult
  pngDecode : List Nat → Except String Image

/-- The input file as the call observes it: `baseName` is `stat.Name()`
(the base name of the opened path), `size` is `stat.Size()`, and `zip` is
the outcome of `zip.NewReader` — the ordered entry list, or an error when
the bytes are not a readable archive. -/
structure InputFile where
  baseName : String
  size : Int
  zip : Except String (List ZipEntry)

/-- Result of `NewAppParser`: Go's `(*AppInfo, error)` pair, or the
runtime panic raised by dereferencing a nil `*AppInfo`. -/
inductive GoResult where
  | ret (info : Option AppInfo) (err : Option String)
  | panicNilDeref
  deriving DecidableEq, Repr

/-! ## String matching

`reInfoPlist = regexp.MustCompile("Payload/[^/]+/Info\\.plist")` used via
`MatchString` (substring search, unanchored), and
`strings.Contains(name, "AppIcon60x60")`. -/

/-- `listStartsWith p s`: `p` is a prefix of `s`. -/
def listStartsWith : List Char → List Char → Bool
  | [], _ => true
  | _ :: _, [] => false
  | p :: ps, c :: cs => p = c && listStartsWith ps cs

/-- `midThenPlist s`: `s` starts with `mid ++ "/Info.plist"` for some
nonempty `mid` containing no slash — the `[^/]+/Info\.plist` tail of the
pattern, matched at the current position. -/
def midThenPlist : List Char → Bool
  | [] => false
  | c :: cs =>
    if c = '/' then false
    else listStartsWith "/Info.plist".toList cs || midThenPlist cs

/-- A match of the full pattern starts at the head of `s`. -/
def matchFromHere (s : List Char) : Bool :=
  listStartsWith "Payload/".toList s && midThenPlist (s.drop 8)

/-- `reInfoPlist.MatchString`: some position of `s` starts a match of
`Payload/[^/]+/Info\.plist` (unanchored, as Go's `MatchString` is). -/
def reInfoPlistMatch : List Char → Bool
  | [] => false
  | c :: cs => matchFromHere (c :: cs) || reInfoPlistMatch cs

/-- `strings.Contains s pat`: `pat` occurs as a contiguous substring. -/
def hasSubstring (pat : List Char) : List Char → Bool
  | [] => listStartsWith pat []
  | c :: cs => listStartsWith pat (c :: cs) || hasSubstring pat cs

/-! ## Container scanner (parser.go lines 70-80) -/

/-- The three entry references accumulated by the scan loop. -/
structure ScanState where
  xmlFile : Option ZipEntry
  plistFile : Option ZipEntry
  iosIconFile : Option ZipEntry
  deriving DecidableEq, Repr

/-- One iteration of the scan loop: the Go `switch` tries the Android
manifest name first, then the plist pattern, then the icon fragment, and
assigns unconditionally — a later matching entry overwrites an earlier
one. -/
def scanStep (st : ScanState) (f : ZipEntry) : ScanState :=
  if f.name = "AndroidManifest.xml" then { st with xmlFile := some f }
  else if reInfoPlistMatch f.name.toList then { st with plistFile := some f }
  else if hasSubstring "AppIcon60x60".toList f.name.toList then
    { st with iosIconFile := some f }
  else st

/-- The scan over `reader.File` in archive order. -/
def scanEntries (fs : List ZipEntry) : ScanState :=
  fs.foldl scanStep ⟨none, none, none⟩

/-! ## Platform dispatch -/

/-- `filepath.Ext` core: walks the reversed name, collecting the suffix,
and returns the extension on the first dot found before any separator. -/
def goExtCore : List Char → List Char → List Char
  | _, [] => []
  | acc, c :: cs =>
    if c = '/' then []
    else if c = '.' then '.' :: acc
    else goExtCore (c :: acc) cs

/-- `filepath.Ext(name)`: the suffix beginning at the final dot in the
final slash-separated element; empty when there is no dot. -/
def goExt (name : String) : String :=
  String.mk (goExtCore [] name.toList.reverse)

def iosExt : String := ".ipa"

def androidExt : String := ".apk"

/-! ## Parsing (parser.go lines 110-235)

`parseAndroidManifest`'s open/read/decode of the entry's bytes is the
collaborator chain modelled by `env.decodeManifest`; likewise the plist
read/decode by `env.decodePlist`. -/

/-- `parseApkFile` (lines 135-151): manifest-not-found on a nil entry,
else decode and copy the three attributes; `Name`, `Icon`, `Size` stay at
their `new(AppInfo)` zero values. -/
def parseApkFile (env : Env) : Option ZipEntry → Option AppInfo × Option String
  | none => (none, some "AndroidManifest.xml is not found")
  | some xmlFile =>
    match env.decodeManifest xmlFile.content with
    | .error e => (none, some e)
    | .ok manifest =>
      (some { Name := "", BundleId := manifest.Package,
              Version := manifest.VersionName, Build := manifest.VersionCode,
              Icon := none, Size := 0 }, none)

/-- `parseApkIconAndLabel` (lines 153-170): reopen the package through the
resource-table accessor, request the icon at density 720 (error ignored,
nil icon fatal), then the label (error ignored). -/
def parseApkIconAndLabel (env : Env) : Option Image × String × Option String :=
  match env.apkOpen with
  | .error e => (none, "", some e)
  | .ok pkg =>
    match pkg.icon 720 with
    | none => (none, "", some "Icon is not found")
    | some icon => (some icon, pkg.label, none)

/-- `parseIpaFile` (lines 172-205): plist-not-found on a nil entry, else
decode the five fields and apply the display-name-preferred rule. -/
def parseIpaFile (env : Env) : Option ZipEntry → Option AppInfo × Option String
  | none => (none, some "info.plist is not found")
  | some plistFile =>
    match env.decodePlist plistFile.content with
    | .error e => (none, some ("failed decoding plist data: " ++ e))
    | .ok p =>
      (some { Name := if p.CFBundleDisplayName = "" then p.CFBundleName
                      else p.CFBundleDisplayName,
              BundleId := p.CFBundleIdentifier,
              Version := p.CFBundleShortVersion,
              Build := p.CFBundleVersion,
              Icon := none, Size := 0 }, none)

/-- `parseIpaIcon` (lines 207-235): icon-not-found on a nil entry; revert
the optimization; on the recoverable `iospng.ErrImageData` decode the
buffer with the decode error discarded (`image, _ := png.Decode(...)`);
on any other revert error fail; on full success decode with a decode
failure fatal. -/
def parseIpaIcon (env : Env) : Option ZipEntry → Option Image × Option String
  | none => (none, some "Icon is not found")
  | some iconFile =>
    match env.pngRevert iconFile.content with
    | .imageData out =>
      match env.pngDecode out with
      | .ok img => (some img, none)
      | .error _ => (none, none)
    | .fail e => (none, some ("failed png revert optimization: " ++ e))
    | .ok out =>
      match env.pngDecode out with
      | .ok img => (some img, none)
      | .error e => (none, some ("failed decoding png: " ++ e))

/-- `NewAppParser` (lines 53-108).  After the zip is read and the entries
scanned, the extension dispatches.  Android path: the error of
`parseApkFile` is overwritten by the `:=` of the icon/label call, the
fields are assigned through the possibly nil `info` pointer (a nil
dereference when the manifest step failed), and the icon/label error is
returned alongside the record.  iOS path: a plist error and an icon error
each abort with a nil record; otherwise the record is completed and
returned with a nil error. -/
def NewAppParser (env : Env) (file : InputFile) : GoResult :=
  match file.zip with
  | .error e => .ret none (some ("failed reading zip file: " ++ e))
  | .ok entries =>
    if goExt file.baseName = androidExt then
      match parseApkFile env (scanEntries entries).xmlFile,
            parseApkIconAndLabel env with
      | (none, _), _ => .panicNilDeref
      | (some info, _), (icon, label, err) =>
        .ret (some { info with Name := label, Icon := icon,
                               Size := file.size }) err
    else if goExt file.baseName = iosExt then
      match parseIpaFile env (scanEntries entries).plistFile with
      | (_, some e) => .ret none (some e)
      | (infoOpt, none) =>
        match parseIpaIcon env (scanEntries entries).iosIconFile with
        | (_, some e) => .ret none (some ("failed parsing ipa icon file: " ++ e))
        | (icon, none) =>
          match infoOpt with
          | none => .panicNilDeref
          | some info => .ret (some { info with Icon := icon,
                                                Size := file.size }) none
    else .ret none (some "unknown platform")

/-! ## Derived classification predicates

The per-entry effect of the scan loop's `switch`, read off the source:
a case fires only when every earlier case failed. -/

/-- The entry hits the first `switch` case: the Android manifest name. -/
def isXmlEntry (f : ZipEntry) : Bool :=
  f.name = "AndroidManifest.xml"

/-- The entry hits the second `switch` case: the plist pattern, with the
manifest case not taken. -/
def isPlistEntry (f : ZipEntry) : Bool :=
  !isXmlEntry f && reInfoPlistMatch f.name.toList

/-- The entry hits the third `switch` case: the icon fragment, with the
two earlier cases not taken. -/
def isIconEntry (f : ZipEntry) : Bool :=
  !isXmlEntry f && !reInfoPlistMatch f.name.toList &&
    hasSubstring "AppIcon60x60".toList f.name.toList

/-- Spec-side reading of the plist pattern (refinement target, following
the spec's words, not the source): the WHOLE name has the shape
`Payload/<single segment>/Info.plist`.  `segThenExactPlist s` holds when
`s = mid ++ "/Info.plist"` for a nonempty slash-free `mid`. -/
def segThenExactPlist : List Char → Bool
  | [] => false
  | c :: cs =>
    if c = '/' then false
    else cs = "/Info.plist".toList || segThenExactPlist cs

/-- Spec-side reading: the whole entry name matches
`Payload/[^/]+/Info\.plist` from the first character to the last. -/
def specWholeNamePlistMatch (s : String) : Bool :=
  listStartsWith "Payload/".toList s.toList && segThenExactPlist (s.toList.drop 8)

/-! ## Concrete instances used by witnesses and counterexamples -/

/-- A resource-table handle that resolves an icon at density 720 and the
label `"Example"`. -/
def pkgOk : ApkPkg :=
  ⟨fun d => if d = 720 then some ⟨1⟩ else none, "Example"⟩

/-- Collaborators for a `.apk` missing its manifest: icon/label resolution
succeeds, every decoder fails (none is reached before the nil
dereference). -/
def envNoManifest : Env :=
  ⟨fun _ => .error "bad manifest", .ok pkgOk, fun _ => .error "bad plist",
   fun _ => .fail "bad png", fun _ => .error "bad image"⟩

/-- A valid archive named `app.apk` with no `AndroidManifest.xml` entry. -/
def fileNoManifest : InputFile :=
  ⟨"app.apk", 10, .ok [⟨"classes.dex", [0]⟩]⟩

/-- Collaborators for the recoverable-image-data scenario: reversal
reports `ErrImageData` and the partially reverted buffer does not decode. -/
def envImageDataBadPng : Env :=
  ⟨fun _ => .error "bad manifest", .error "no apk", fun _ => .error "bad plist",
   fun _ => .imageData [9], fun _ => .error "not a png"⟩

/-- An iOS icon entry. -/
def iconEntry : ZipEntry :=
  ⟨"Payload/App.app/AppIcon60x60@2x.png", [5]⟩

/-- Collaborators for a `.apk` whose manifest decodes but whose
resource-table open fails. -/
def envApkOpenFails : Env :=
  ⟨fun _ => .ok ⟨"com.x", "1.0", "7"⟩, .error "boom", fun _ => .error "bad plist",
   fun _ => .fail "bad png", fun _ => .error "bad image"⟩

/-- A valid archive named `app.apk` containing the manifest entry. -/
def fileWithManifest : InputFile :=
  ⟨"app.apk", 10, .ok [⟨"AndroidManifest.xml", [0]⟩]⟩

/-- An input named `a.txt` whose bytes are not a readable zip archive. -/
def fileTxtBadZip : InputFile :=
  ⟨"a.txt", 5, .error "boom"⟩

/-- An input named `a.txt` that is a readable (empty) archive. -/
def fileTxtOkZip : InputFile :=
  ⟨"a.txt", 5, .ok []⟩

/-- Collaborators for a well-formed `.apk`: manifest decodes to the
spec's example attributes and the resource table resolves icon and label. -/
def envApkOk : Env :=
  ⟨fun _ => .ok ⟨"com.example.app", "1.2.3", "7"⟩, .ok pkgOk,
   fun _ => .error "bad plist", fun _ => .fail "bad png",
   fun _ => .error "bad image"⟩

/-- A well-formed archive named `app.apk` of 100 bytes. -/
def fileApkOk : InputFile :=
  ⟨"app.apk", 100, .ok [⟨"AndroidManifest.xml", [0]⟩]⟩

/-- A plist entry whose whole name matches the pattern. -/
def plistEntryOk : ZipEntry :=
  ⟨"Payload/App.app/Info.plist", [3]⟩

/-- Collaborators whose plist decoder yields the spec's example record
(empty display name). -/
def envPlistOk : Env :=
  ⟨fun _ => .error "bad manifest", .error "no apk",
   fun _ => .ok ⟨"Example", "", "7", "1.0", "com.e"⟩,
   fun _ => .imageData [9], fun _ => .error "not a png"⟩

/-- An `.ipa` archive of 42 bytes holding the plist entry and the icon
entry. -/
def fileIpaOk : InputFile :=
  ⟨"app.ipa", 42, .ok [plistEntryOk, iconEntry]⟩

/-! ## Helper lemmas on the scanner -/

theorem reInfoPlistMatch_androidManifest :
    reInfoPlistMatch "AndroidManifest.xml".toList = false := by decide

theorem hasSubstring_icon_androidManifest :
    hasSubstring "AppIcon60x60".toList "AndroidManifest.xml".toList = false := by
  decide

theorem scanStep_xmlFile (st : ScanState) (f : ZipEntry) :
    (scanStep st f).xmlFile = if isXmlEntry f then some f else st.xmlFile := by
  by_cases h : f.name = "AndroidManifest.xml"
  · simp [scanStep, isXmlEntry, h]
  · simp [scanStep, isXmlEntry, h, apply_ite (ScanState.xmlFile)]

theorem scanStep_plistFile (st : ScanState) (f : ZipEntry) :
    (scanStep st f).plistFile = if isPlistEntry f then some f else st.plistFile := by
  by_cases h : f.name = "AndroidManifest.xml"
  · simp [scanStep, isPlistEntry, isXmlEntry, h]
  · by_cases h2 : reInfoPlistMatch f.name.data = true
    · simp [scanStep, isPlistEntry, isXmlEntry, h, h2]
    · simp [scanStep, isPlistEntry, isXmlEntry, h, h2,
            apply_ite (ScanState.plistFile)]

theorem scanStep_iosIconFile (st : ScanState) (f : ZipEntry) :
    (scanStep st f).iosIconFile
      = if isIconEntry f then some f else st.iosIconFile := by
  by_cases h : f.name = "AndroidManifest.xml"
  · simp [scanStep, isIconEntry, isXmlEntry, h]
  · by_cases h2 : reInfoPlistMatch f.name.data = true
    · simp [scanStep, isIconEntry, isXmlEntry, h, h2]
    · simp [scanStep, isIconEntry, isXmlEntry, h, h2,
            apply_ite (ScanState.iosIconFile)]

theorem foldl_scanStep_xmlFile (fs : List ZipEntry) : ∀ st : ScanState,
    (fs.foldl scanStep st).xmlFile = (fs.reverse.find? isXmlEntry).or st.xmlFile := by
  induction fs with
  | nil => intro st; simp
  | cons f rest ih =>
    intro st
    rw [List.foldl_cons, List.reverse_cons, ih, scanStep_xmlFile]
    by_cases h : isXmlEntry f <;> simp [h, Option.or_assoc, Option.or_none]

theorem foldl_scanStep_plistFile (fs : List ZipEntry) : ∀ st : ScanState,
    (fs.foldl scanStep st).plistFile
      = (fs.reverse.find? isPlistEntry).or st.plistFile := by
  induction fs with
  | nil => intro st; simp
  | cons f rest ih =>
    intro st
    rw [List.foldl_cons, List.reverse_cons, ih, scanStep_plistFile]
    by_cases h : isPlistEntry f <;> simp [h, Option.or_assoc, Option.or_none]

theorem foldl_scanStep_iosIconFile (fs : List ZipEntry) : ∀ st : ScanState,
    (fs.foldl scanStep st).iosIconFile
      = (fs.reverse.find? isIconEntry).or st.iosIconFile := by
  induction fs with
  | nil => intro st; simp
  | cons f rest ih =>
    intro st
    rw [List.foldl_cons, List.reverse_cons, ih, scanStep_iosIconFile]
    by_cases h : isIconEntry f <;> simp [h, Option.or_assoc, Option.or_none]

/-! ## Claim theorems -/

/-- C1 (code bug witnessed): on a valid `.apk` archive with no
`AndroidManifest.xml` entry, `NewAppParser` does not return the
manifest-not-found error produced by `parseApkFile` — that error is
overwritten by the icon/label call and the nil record pointer is
dereferenced, so the call panics, even though icon/label resolution
succeeds. -/
theorem newAppParser_missing_manifest_panics :
    (scanEntries [⟨"classes.dex", [0]⟩]).xmlFile = none ∧
    parseApkIconAndLabel envNoManifest = (some ⟨1⟩, "Example", none) ∧
    NewAppParser envNoManifest fileNoManifest = .panicNilDeref := by
  decide

/-- C2 (counterexample): two entries both named `AndroidManifest.xml`;
the scanner keeps the second, not the earliest, so "the earliest visited
wins" fails on this archive. -/
theorem scan_first_match_counterexample :
    (scanEntries [⟨"AndroidManifest.xml", [0]⟩, ⟨"AndroidManifest.xml", [1]⟩]).xmlFile
        = some ⟨"AndroidManifest.xml", [1]⟩ ∧
    (scanEntries [⟨"AndroidManifest.xml", [0]⟩, ⟨"AndroidManifest.xml", [1]⟩]).xmlFile
        ≠ some ⟨"AndroidManifest.xml", [0]⟩ := by
  decide

/-- C2 (amended): the scan loop assigns unconditionally, so for each of
the three patterns the scanner selects the LATEST matching entry in
archive order (the first match of the reversed entry list) and ignores
all earlier matching entries. -/
theorem scanEntries_last_match_wins (fs : List ZipEntry) :
    (scanEntries fs).xmlFile = fs.reverse.find? isXmlEntry ∧
    (scanEntries fs).plistFile = fs.reverse.find? isPlistEntry ∧
    (scanEntries fs).iosIconFile = fs.reverse.find? isIconEntry := by
  refine ⟨?_, ?_, ?_⟩
  · rw [scanEntries, foldl_scanStep_xmlFile]
    exact Option.or_none
  · rw [scanEntries, foldl_scanStep_plistFile]
    exact Option.or_none
  · rw [scanEntries, foldl_scanStep_iosIconFile]
    exact Option.or_none

/-- C3 (counterexample): an icon entry on which the optimization
reversal reports the recoverable `ErrImageData` condition and the
partially reverted buffer fails to decode as a PNG; `parseIpaIcon`
returns neither an icon nor an error — the final decode failure is not
fatal, contradicting "a failure of that final raster decode is fatal". -/
theorem ipaIcon_imageData_decode_failure_not_fatal :
    parseIpaIcon envImageDataBadPng (some iconEntry) = (none, none) := by
  decide

/-- C3 (amended): on the recoverable `ErrImageData` reversal outcome the
partially reverted buffer is decoded as a standard PNG and a decoded
icon is returned, but a failure of that decode is silently discarded
(the call returns no icon and no error); only on the full-success
reversal outcome is a failure of the final raster decode fatal. -/
theorem parseIpaIcon_decode_policy (env : Env) (entry : ZipEntry) (out : List Nat) :
    (env.pngRevert entry.content = .imageData out →
      (∀ img, env.pngDecode out = .ok img →
          parseIpaIcon env (some entry) = (some img, none)) ∧
      (∀ e, env.pngDecode out = .error e →
          parseIpaIcon env (some entry) = (none, none))) ∧
    (env.pngRevert entry.content = .ok out →
      (∀ img, env.pngDecode out = .ok img →
          parseIpaIcon env (some entry) = (some img, none)) ∧
      (∀ e, env.pngDecode out = .error e →
          parseIpaIcon env (some entry)
            = (none, some ("failed decoding png: " ++ e)))) := by
  constructor
  · intro hrev
    constructor
    · intro img hdec
      simp [parseIpaIcon, hrev, hdec]
    · intro e hdec
      simp [parseIpaIcon, hrev, hdec]
  · intro hrev
    constructor
    · intro img hdec
      simp [parseIpaIcon, hrev, hdec]
    · intro e hdec
      simp [parseIpaIcon, hrev, hdec]

/-- C3 (witness): the amended policy applied at the concrete
`ErrImageData`-with-undecodable-buffer input. -/
theorem parseIpaIcon_decode_policy_witness :
    envImageDataBadPng.pngRevert iconEntry.content = .imageData [9] ∧
    envImageDataBadPng.pngDecode [9] = .error "not a png" ∧
    parseIpaIcon envImageDataBadPng (some iconEntry) = (none, none) :=
  ⟨by decide, by decide,
    ((parseIpaIcon_decode_policy envImageDataBadPng iconEntry [9]).1
      (by decide)).2 "not a png" (by decide)⟩

/-- C10: there is an `.ipa` input on which `NewAppParser` succeeds (a
record and a nil error) while the record's icon is nil: the reversal
reports `ErrImageData`, the partially reverted bytes fail to decode, and
the decode error is discarded. -/
theorem newAppParser_ipa_success_nil_icon :
    goExt fileIpaOk.baseName = iosExt ∧
    envPlistOk.pngRevert iconEntry.content = .imageData [9] ∧
    envPlistOk.pngDecode [9] = .error "not a png" ∧
    NewAppParser envPlistOk fileIpaOk
      = .ret (some ⟨"Example", "com.e", "1.0", "7", none, 42⟩) none := by
  decide

/-- C4 (counterexample): a `.apk` whose manifest decodes but whose
resource-table open fails; `NewAppParser` returns a record populated
with the manifest fields TOGETHER with the icon/label error — a
partially populated record alongside the error. -/
theorem newAppParser_partial_record_with_error :
    NewAppParser envApkOpenFails fileWithManifest
      = .ret (some ⟨"", "com.x", "1.0", "7", none, 10⟩) (some "boom") := by
  decide

/-- C4 (amended): a record returned together with a non-nil error can
arise only on the Android path (where the icon/label error is returned
alongside the manifest-populated record); the iOS path and the
pre-dispatch and unknown-platform paths never pair a record with an
error. -/
theorem newAppParser_record_with_error_only_android (env : Env)
    (file : InputFile) (info : AppInfo) (e : String)
    (h : NewAppParser env file = .ret (some info) (some e)) :
    goExt file.baseName = androidExt := by
  unfold NewAppParser at h
  split at h
  · simp at h
  · split at h
    · assumption
    · split at h
      · split at h
        · simp at h
        · split at h
          · simp at h
          · split at h
            · simp at h
            · simp at h
      · simp at h

/-- C4 (witness): the amended statement applied at the concrete
icon/label-failure input. -/
theorem newAppParser_record_with_error_only_android_witness :
    goExt fileWithManifest.baseName = androidExt :=
  newAppParser_record_with_error_only_android envApkOpenFails fileWithManifest
    ⟨"", "com.x", "1.0", "7", none, 10⟩ "boom" (by decide)

/-- C5 (counterexample): an input named `a.txt` whose bytes are not a
readable zip archive; the call fails with the zip-reading error, not the
unrecognized-platform error, although the extension is neither `.apk`
nor `.ipa`. -/
theorem newAppParser_unreadable_zip_counterexample :
    goExt fileTxtBadZip.baseName ≠ androidExt ∧
    goExt fileTxtBadZip.baseName ≠ iosExt ∧
    NewAppParser envApkOpenFails fileTxtBadZip
      = .ret none (some "failed reading zip file: boom") ∧
    "failed reading zip file: boom" ≠ "unknown platform" := by
  decide

/-- C5 (amended): for every input file that is readable as a zip archive
and whose name's extension is neither `.apk` nor `.ipa`, the call fails
with the unrecognized-platform error and produces no record. -/
theorem newAppParser_unknown_platform (env : Env) (file : InputFile)
    (entries : List ZipEntry) (hzip : file.zip = .ok entries)
    (ha : goExt file.baseName ≠ androidExt)
    (hi : goExt file.baseName ≠ iosExt) :
    NewAppParser env file = .ret none (some "unknown platform") := by
  unfold NewAppParser
  rw [hzip]
  simp [ha, hi]

/-- C5 (witness): the amended statement applied at a readable empty
archive named `a.txt`. -/
theorem newAppParser_unknown_platform_witness :
    NewAppParser envApkOpenFails fileTxtOkZip
      = .ret none (some "unknown platform") :=
  newAppParser_unknown_platform envApkOpenFails fileTxtOkZip []
    (by decide) (by decide) (by decide)

/-- C6 (counterexample): the entry named `xPayload/a/Info.plist` is
classified as the plist entry by the scanner although its WHOLE name
does not match `Payload/[^/]+/Info\.plist` — the Go regexp is used
unanchored, so a match anywhere in the name suffices. -/
theorem scan_plist_not_whole_name_counterexample :
    (scanEntries [⟨"xPayload/a/Info.plist", []⟩]).plistFile
        = some ⟨"xPayload/a/Info.plist", []⟩ ∧
    specWholeNamePlistMatch "xPayload/a/Info.plist" = false := by
  decide

/-- On an entry that is not the Android manifest, the plist case of the
`switch` is decided by the pattern alone — and the manifest name itself
never matches the pattern. -/
theorem isPlistEntry_eq (f : ZipEntry) :
    isPlistEntry f = reInfoPlistMatch f.name.toList := by
  by_cases h : f.name = "AndroidManifest.xml"
  · simp only [isPlistEntry, isXmlEntry, h]
    decide
  · simp [isPlistEntry, isXmlEntry, h]

/-- On an entry that is not the Android manifest, the icon case of the
`switch` is decided by the fragment and the failed plist pattern — and
the manifest name contains neither. -/
theorem isIconEntry_eq (f : ZipEntry) :
    isIconEntry f = (!reInfoPlistMatch f.name.toList &&
      hasSubstring "AppIcon60x60".toList f.name.toList) := by
  by_cases h : f.name = "AndroidManifest.xml"
  · simp only [isIconEntry, isXmlEntry, h]
    decide
  · simp [isIconEntry, isXmlEntry, h]

/-- C6 (amended): the scanner classifies an entry as the iOS plist entry
exactly when its name CONTAINS a substring matching
`Payload/[^/]+/Info\.plist` (not necessarily the whole name), and as the
iOS icon entry exactly when its name contains the icon fragment AND does
not match the plist pattern (the `switch` gives the plist case
precedence). -/
theorem scan_entry_classification (f : ZipEntry) :
    ((scanEntries [f]).plistFile = some f
        ↔ reInfoPlistMatch f.name.toList = true) ∧
    ((scanEntries [f]).iosIconFile = some f
        ↔ (hasSubstring "AppIcon60x60".toList f.name.toList = true ∧
           reInfoPlistMatch f.name.toList = false)) := by
  refine ⟨?_, ?_⟩
  · rw [show (scanEntries [f]).plistFile
        = if isPlistEntry f then some f else none from
        scanStep_plistFile ⟨none, none, none⟩ f, isPlistEntry_eq]
    by_cases h2 : reInfoPlistMatch f.name.toList = true
    · simp [h2]
    · simp [h2]
  · rw [show (scanEntries [f]).iosIconFile
        = if isIconEntry f then some f else none from
        scanStep_iosIconFile ⟨none, none, none⟩ f, isIconEntry_eq]
    simp [and_comm]

/-- C7: for a well-formed `.apk` (readable archive, manifest entry found,
manifest decoding to its three attributes, resource table resolving an
icon at density 720 and a label), the call returns the record with the
resolver label as name, the manifest attributes as bundleId, version and
build, the resolved (non-nil) icon, the file's byte length as size, and
a nil error. -/
theorem newAppParser_wellformed_apk (env : Env) (file : InputFile)
    (entries : List ZipEntry) (e : ZipEntry) (m : AndroidManifest)
    (pkg : ApkPkg) (icon : Image)
    (hzip : file.zip = .ok entries)
    (hext : goExt file.baseName = androidExt)
    (hxml : (scanEntries entries).xmlFile = some e)
    (hm : env.decodeManifest e.content = .ok m)
    (hopen : env.apkOpen = .ok pkg)
    (hicon : pkg.icon 720 = some icon) :
    NewAppParser env file
      = .ret (some ⟨pkg.label, m.Package, m.VersionName, m.VersionCode,
                    some icon, file.size⟩) none := by
  unfold NewAppParser
  rw [hzip]
  simp [hext, parseApkFile, hxml, hm, parseApkIconAndLabel, hopen, hicon]

/-- C7 (witness): the statement applied at the spec's example manifest
attributes and resolver outputs. -/
theorem newAppParser_wellformed_apk_witness :
    NewAppParser envApkOk fileApkOk
      = .ret (some ⟨"Example", "com.example.app", "1.2.3", "7",
                    some ⟨1⟩, 100⟩) none :=
  newAppParser_wellformed_apk envApkOk fileApkOk
    [⟨"AndroidManifest.xml", [0]⟩] ⟨"AndroidManifest.xml", [0]⟩
    ⟨"com.example.app", "1.2.3", "7"⟩ pkgOk ⟨1⟩
    (by decide) (by decide) (by decide) (by decide) rfl (by decide)

/-- C8: when the plist decodes, the record's name is
`CFBundleDisplayName` when that field is non-empty and `CFBundleName`
otherwise, and bundleId, version and build are copied verbatim from
`CFBundleIdentifier`, `CFBundleShortVersionString` and
`CFBundleVersion`. -/
theorem parseIpaFile_fields (env : Env) (entry : ZipEntry) (p : IosPlist)
    (h : env.decodePlist entry.content = .ok p) :
    parseIpaFile env (some entry)
      = (some ⟨if p.CFBundleDisplayName = "" then p.CFBundleName
               else p.CFBundleDisplayName,
               p.CFBundleIdentifier, p.CFBundleShortVersion,
               p.CFBundleVersion, none, 0⟩, none) := by
  simp [parseIpaFile, h]

/-- C8 (witness): the statement applied at the spec's example plist with
an empty display name (the fallback rule picks `CFBundleName`). -/
theorem parseIpaFile_fields_witness :
    parseIpaFile envPlistOk (some plistEntryOk)
      = (some ⟨"Example", "com.e", "1.0", "7", none, 0⟩, none) :=
  parseIpaFile_fields envPlistOk plistEntryOk
    ⟨"Example", "", "7", "1.0", "com.e"⟩ (by decide)

/-- C9: every call that returns a record (on either platform path, with
or without an accompanying error) sets the record's size to the
container file's on-disk byte length. -/
theorem newAppParser_size_invariant (env : Env) (file : InputFile)
    (info : AppInfo) (err : Option String)
    (h : NewAppParser env file = .ret (some info) err) :
    info.Size = file.size := by
  unfold NewAppParser at h
  split at h
  · simp at h
  · split at h
    · split at h
      · simp at h
      · simp only [GoResult.ret.injEq, Option.some.injEq] at h
        obtain ⟨h1, -⟩ := h
        subst h1
        rfl
    · split at h
      · split at h
        · simp at h
        · split at h
          · simp at h
          · split at h
            · simp at h
            · simp only [GoResult.ret.injEq, Option.some.injEq] at h
              obtain ⟨h1, -⟩ := h
              subst h1
              rfl
      · simp at h

/-- C9 (witness): the invariant applied at the concrete `.ipa` run that
returns a record. -/
theorem newAppParser_size_invariant_witness :
    (⟨"Example", "com.e", "1.0", "7", none, 42⟩ : AppInfo).Size
      = fileIpaOk.size :=
  newAppParser_size_invariant envPlistOk fileIpaOk
    ⟨"Example", "com.e", "1.0", "7", none, 42⟩ none (by decide)
